import Mathlib

/-!
Verification of the combat-simulation core of the `game-zaku-app` repository.

The JavaScript source is shallowly embedded: JS numbers are modelled as `ℚ`
(all arithmetic in the combat core is exact on the inputs of interest),
`Math.floor` as `Int.floor`, millisecond timestamps (`Date.now()`) as `ℤ`,
and mutation as explicit state passing.  Purely visual side effects
(meshes, particles, sounds, HUD popups) are not part of the embedded state;
whenever a source function touches them this is noted in the doc comment of
its embedding.
-/

namespace ZakuApp

/-- Embedding of `THREE.Vector3` as used by the bullet subsystem. -/
structure Vec3 where
  x : ℚ
  y : ℚ
  z : ℚ
deriving Repr, DecidableEq

/-- Componentwise vector addition (`Vector3.add`). -/
def Vec3.add (a b : Vec3) : Vec3 := ⟨a.x + b.x, a.y + b.y, a.z + b.z⟩

/-- Scalar multiplication (`Vector3.multiplyScalar`). -/
def Vec3.smul (k : ℚ) (a : Vec3) : Vec3 := ⟨k * a.x, k * a.y, k * a.z⟩

/-! ### Constants (src/src/utils/Constants.js) -/

/-- `GAME.comboTimeout` — combo timeout in milliseconds. -/
def comboTimeout : ℚ := 3000

/-- `WEAPONS.machineGun.fireRate` — milliseconds between accepted shots. -/
def machineGunFireRate : ℤ := 100

/-- `WEAPONS.machineGun.damage`. -/
def machineGunDamage : ℚ := 10

/-- `WEAPONS.machineGun.range` — bullet range in world units. -/
def machineGunRange : ℚ := 60

/-- `Zaku.bulletSpeed` (src/src/entities/Zaku.js line 52), units per second. -/
def zakuBulletSpeed : ℚ := 150

/-- `Zaku.maxBoostEnergy` (src/src/entities/Zaku.js line 39). -/
def maxBoostEnergy : ℚ := 100

/-- `Zaku.boostDrainRate` (src/src/entities/Zaku.js line 41), per second. -/
def boostDrainRate : ℚ := 25

/-- `Zaku.boostRegenRate` (src/src/entities/Zaku.js line 40), per second. -/
def boostRegenRate : ℚ := 15

/-! ### ScoreSystem (src/unnamed/part_000, class `ScoreSystem`)

`highScore` and the localStorage ranking persistence are external to the
combat core and are not part of the embedded state. -/

/-- The `stats` record of `ScoreSystem`. -/
structure Stats where
  totalDamage : ℚ
  sectionsDestroyed : ℕ
  maxCombo : ℕ
  accuracy : ℚ
  shotsFired : ℕ
  shotsHit : ℕ
deriving Repr, DecidableEq

/-- Mutable state of `ScoreSystem`.  `comboTimeout` is set once in the
constructor from `GAME.comboTimeout` and never written again, so it is kept
as the constant `comboTimeout` rather than a field. -/
structure ScoreSystem where
  score : ℤ
  combo : ℕ
  comboTimer : ℚ
  stats : Stats
deriving Repr, DecidableEq

/-- State after the `ScoreSystem` constructor / `reset()`. -/
def ScoreSystem.init : ScoreSystem :=
  { score := 0, combo := 0, comboTimer := 0
    stats := { totalDamage := 0, sectionsDestroyed := 0, maxCombo := 0
               accuracy := 0, shotsFired := 0, shotsHit := 0 } }

/-- The record returned by `ScoreSystem.addScore`. -/
structure AddScoreResult where
  points : ℤ
  combo : ℕ
  multiplier : ℚ
deriving Repr, DecidableEq

/-- `ScoreSystem.addScore(basePoints)`: applies the combo multiplier
`1 + combo * 0.1`, floors, adds to the score, increments the combo and
resets the combo timer to the full window, tracking the max combo. -/
def ScoreSystem.addScore (s : ScoreSystem) (basePoints : ℚ) :
    AddScoreResult × ScoreSystem :=
  let comboMultiplier : ℚ := 1 + (s.combo : ℚ) * (1/10)
  let points : ℤ := ⌊basePoints * comboMultiplier⌋
  let combo1 := s.combo + 1
  let maxCombo1 := if combo1 > s.stats.maxCombo then combo1 else s.stats.maxCombo
  (⟨points, combo1, comboMultiplier⟩,
   { s with
      score := s.score + points
      combo := combo1
      comboTimer := comboTimeout
      stats := { s.stats with maxCombo := maxCombo1 } })

/-- `ScoreSystem.resetCombo()`. -/
def ScoreSystem.resetCombo (s : ScoreSystem) : ScoreSystem :=
  { s with combo := 0, comboTimer := 0 }

/-- `ScoreSystem.update(deltaTime)`: while a combo is active the timer is
decremented by `deltaTime * 1000` milliseconds and the combo is reset when
it reaches zero. -/
def ScoreSystem.update (s : ScoreSystem) (deltaTime : ℚ) : ScoreSystem :=
  if s.combo > 0 then
    let t := s.comboTimer - deltaTime * 1000
    if t ≤ 0 then ScoreSystem.resetCombo { s with comboTimer := t }
    else { s with comboTimer := t }
  else s

/-- `ScoreSystem.recordShot(hit)`. -/
def ScoreSystem.recordShot (s : ScoreSystem) (hit : Bool) : ScoreSystem :=
  let fired := s.stats.shotsFired + 1
  let hits := if hit then s.stats.shotsHit + 1 else s.stats.shotsHit
  { s with stats := { s.stats with
      shotsFired := fired
      shotsHit := hits
      accuracy := (hits : ℚ) / (fired : ℚ) * 100 } }

/-- `ScoreSystem.recordDamage(damage)`. -/
def ScoreSystem.recordDamage (s : ScoreSystem) (damage : ℚ) : ScoreSystem :=
  { s with stats := { s.stats with totalDamage := s.stats.totalDamage + damage } }

/-- `ScoreSystem.recordDestruction()`. -/
def ScoreSystem.recordDestruction (s : ScoreSystem) : ScoreSystem :=
  { s with stats := { s.stats with
      sectionsDestroyed := s.stats.sectionsDestroyed + 1 } }

/-! ### Colony (src/unnamed/part_001, class `Colony`)

A destructible section is the record pushed into `this.sections` at
build time.  Its `mesh` (a THREE object or group) is modelled by a numeric
identity `meshId` together with the identities `meshChildren` of the meshes
reached by `mesh.traverse`; the colony's visual geometry never changes
shape at runtime, only visibility. -/

/-- One entry of `Colony.sections`. -/
structure ColonySection where
  meshId : ℕ
  meshChildren : List ℕ
  type : String
  health : ℚ
  maxHealth : ℚ
  points : ℚ
  destroyed : Bool
deriving Repr, DecidableEq

/-- The hit result object returned by `Colony.damageSection`. -/
structure HitResult where
  points : ℚ
  destroyed : Bool
  type : String
deriving Repr, DecidableEq

/-- Mutable state of `Colony` relevant to the combat core (the scene graph,
explosion particles and rotation animation are rendering state). -/
structure Colony where
  sections : List ColonySection
  totalHealth : ℚ
  currentHealth : ℚ
  destructionPercentage : ℚ
deriving Repr, DecidableEq

/-- `Colony.updateDestructionPercentage()`:
`destructionPercentage = (totalHealth - currentHealth) / totalHealth * 100`. -/
def Colony.updateDestructionPercentage (c : Colony) : Colony :=
  { c with destructionPercentage :=
      (c.totalHealth - c.currentHealth) / c.totalHealth * 100 }

/-- `Colony.destroySection(section)`: hides the mesh (rendering only) and
recomputes the destruction percentage. -/
def Colony.destroySection (c : Colony) : Colony :=
  c.updateDestructionPercentage

/-- `Colony.damageSection(sectionIndex, damage)`.  Returns the hit result
(`null` becomes `none`) together with the updated colony.  The visual
colour-feedback on the section material is rendering-only and omitted. -/
def Colony.damageSection (c : Colony) (sectionIndex : ℕ) (damage : ℚ) :
    Option HitResult × Colony :=
  match c.sections[sectionIndex]? with
  | none => (none, c)
  | some s =>
    if s.destroyed then (none, c)
    else
      let s1 := { s with health := s.health - damage }
      let c1 := { c with
        sections := c.sections.set sectionIndex s1
        currentHealth := c.currentHealth - damage }
      if s1.health ≤ 0 then
        let s2 := { s1 with destroyed := true }
        let c2 := { c1 with sections := c.sections.set sectionIndex s2 }
        (some ⟨s.points, true, s.type⟩, c2.destroySection)
      else
        (some ⟨((⌊damage⌋ : ℤ) : ℚ), false, s.type⟩, c1)

/-- `Colony.getDestructionPercentage()`. -/
def Colony.getDestructionPercentage (c : Colony) : ℚ :=
  c.destructionPercentage

/-- Loop body of `Colony.getSectionAtPoint`: scans sections from index `i`
upward, skipping destroyed ones; a section matches when its mesh is the
intersected object or one of that object's ancestors.  `chain` is the
intersected object's identity followed by the identities of its parents. -/
def Colony.getSectionAtPointFrom :
    List ColonySection → List ℕ → ℕ → Option (ℕ × ColonySection)
  | [], _, _ => none
  | s :: rest, chain, i =>
    if s.destroyed then Colony.getSectionAtPointFrom rest chain (i + 1)
    else if s.meshId ∈ chain then some (i, s)
    else Colony.getSectionAtPointFrom rest chain (i + 1)

/-- `Colony.getSectionAtPoint(intersect)` with the intersected object given
by its parent chain `chain` (object identity first, then its ancestors). -/
def Colony.getSectionAtPoint (c : Colony) (chain : List ℕ) :
    Option (ℕ × ColonySection) :=
  Colony.getSectionAtPointFrom c.sections chain 0

/-- `Colony.getHitTargets()`: for every non-destroyed section, its mesh and
every mesh reached by `traverse`. -/
def Colony.getHitTargets (c : Colony) : List ℕ :=
  (c.sections.filter (fun s => !s.destroyed)).flatMap
    (fun s => s.meshId :: s.meshChildren)

/-! ### Zaku projectiles and boost (src/src/entities/Zaku.js)

Bullets are THREE meshes whose simulation state lives in `userData`; the
mesh itself (geometry, material, scene membership) is rendering state.
The muzzle's world position and (already normalised) world direction are
supplied by the scene graph, so `fire`/`spawnBullet` take them as
arguments. -/

/-- The `userData` simulation state of one bullet. -/
structure Bullet where
  startPosition : Vec3
  position : Vec3
  direction : Vec3
  distanceTraveled : ℚ
  maxDistance : ℚ
  damage : ℚ
  speed : ℚ
deriving Repr, DecidableEq

/-- Combat-relevant mutable state of `Zaku`. -/
structure Zaku where
  boostEnergy : ℚ
  lastFireTime : ℤ
  fireRate : ℤ
  bullets : List Bullet
  bulletSpeed : ℚ
  bulletRange : ℚ
  bulletDamage : ℚ
deriving Repr, DecidableEq

/-- State after the `Zaku` constructor. -/
def Zaku.init : Zaku :=
  { boostEnergy := maxBoostEnergy, lastFireTime := 0
    fireRate := machineGunFireRate, bullets := []
    bulletSpeed := zakuBulletSpeed, bulletRange := machineGunRange
    bulletDamage := machineGunDamage }

/-- The bullet built by `Zaku.spawnBullet` from the muzzle's world
position and direction. -/
def Zaku.newBullet (z : Zaku) (muzzlePos muzzleDir : Vec3) : Bullet :=
  { startPosition := muzzlePos, position := muzzlePos, direction := muzzleDir
    distanceTraveled := 0, maxDistance := z.bulletRange
    damage := z.bulletDamage, speed := z.bulletSpeed }

/-- `Zaku.spawnBullet()` (success path: the muzzle point exists, as it does
for the constructed model): pushes one new bullet into `this.bullets`. -/
def Zaku.spawnBullet (z : Zaku) (muzzlePos muzzleDir : Vec3) : Zaku :=
  { z with bullets := z.bullets ++ [z.newBullet muzzlePos muzzleDir] }

/-- `Zaku.fire()` at time `now` (`Date.now()` in ms): rejected while
`now - lastFireTime < fireRate`, otherwise resets the cooldown timestamp
and spawns one bullet.  Muzzle flash, particles, sound and recoil are
rendering/audio side effects and omitted. -/
def Zaku.fire (z : Zaku) (now : ℤ) (muzzlePos muzzleDir : Vec3) :
    Bool × Zaku :=
  if now - z.lastFireTime < z.fireRate then (false, z)
  else (true, Zaku.spawnBullet { z with lastFireTime := now } muzzlePos muzzleDir)

/-- Per-bullet body of `Zaku.updateBullets`: advance the position by
`direction * speed * deltaTime` and accumulate the distance traveled. -/
def updateBullet (deltaTime : ℚ) (b : Bullet) : Bullet :=
  let moveDistance := b.speed * deltaTime
  { b with
      position := b.position.add (Vec3.smul moveDistance b.direction)
      distanceTraveled := b.distanceTraveled + moveDistance }

/-- `Zaku.updateBullets(deltaTime)` on the bullet list.  The source
iterates back-to-front (`for i = length-1 downto 0`) splicing out expired
bullets in place; on a list this is the recursion below, which handles the
later elements before the head.  Geometry/material disposal is rendering
state. -/
def updateBulletsList (deltaTime : ℚ) : List Bullet → List Bullet
  | [] => []
  | b :: rest =>
    let rest1 := updateBulletsList deltaTime rest
    let b1 := updateBullet deltaTime b
    if b1.distanceTraveled ≥ b1.maxDistance then rest1 else b1 :: rest1

/-- `Zaku.updateBullets(deltaTime)`. -/
def Zaku.updateBullets (z : Zaku) (deltaTime : ℚ) : Zaku :=
  { z with bullets := updateBulletsList deltaTime z.bullets }

/-- Boost-energy slice of `Zaku.processMovement` (lines 901-908):
`isBoosting = input.boost && boostEnergy > 0`; while boosting the energy
drains at `boostDrainRate` (clamped at 0), otherwise it regenerates at
`boostRegenRate` (clamped at `maxBoostEnergy`). -/
def stepBoostEnergy (e : ℚ) (boost : Bool) (deltaTime : ℚ) : ℚ :=
  let isBoosting := boost && decide (e > 0)
  if isBoosting then max 0 (e - boostDrainRate * deltaTime)
  else min maxBoostEnergy (e + boostRegenRate * deltaTime)

/-- Boost energy after a sequence of `processMovement` calls, each with a
boost flag and a `deltaTime`. -/
def runBoost (e : ℚ) : List (Bool × ℚ) → ℚ
  | [] => e
  | (b, dt) :: rest => runBoost (stepBoostEnergy e b dt) rest

/-! ### Tick orchestration slices (src/src/core/Camera.js, class `Game`) -/

/-- Damage/scoring branch of `Game.handleShooting` after the crosshair ray
hit the colony and `getSectionAtPoint` mapped the intersection to section
`idx`: beam damage is `10 * deltaTime * 60` (time-normalised to 60 fps),
applied via `damageSection`; statistics are recorded on any effective hit,
and `addScore` is invoked only when the hit destroyed the section, with
the section's bounty as base points.  Explosions, camera shake and HUD
popups are rendering effects. -/
def handleShootingHit (c : Colony) (ss : ScoreSystem) (idx : ℕ)
    (deltaTime : ℚ) : Colony × ScoreSystem :=
  let damage := 10 * deltaTime * 60
  match c.damageSection idx damage with
  | (none, c1) => (c1, ss)
  | (some result, c1) =>
    let ss1 := (ss.recordShot true).recordDamage damage
    if result.destroyed then
      let ss2 := (ss1.recordDestruction.addScore result.points).2
      (c1, ss2)
    else (c1, ss1)

/-- A sequence of `damageSection` calls (section index, damage amount). -/
def Colony.runDamage (c : Colony) : List (ℕ × ℚ) → Colony
  | [] => c
  | (i, d) :: rest => ((c.damageSection i d).2).runDamage rest

/-! ### Concrete structures used as test inputs -/

/-- A one-section colony as in the spec's end-to-end scenario: a single
segment with `maxHealth = 50, points = 100` (the window-section shape from
`createColony`), `totalHealth = currentHealth = 50`. -/
def colonyOne : Colony :=
  { sections := [⟨0, [], "window", 50, 50, 100, false⟩]
    totalHealth := 50, currentHealth := 50, destructionPercentage := 0 }

/-- A two-section colony whose first section is already destroyed. -/
def colonyTwo : Colony :=
  { sections :=
      [⟨0, [1], "window", 0, 50, 100, true⟩,
       ⟨2, [3], "solarPanel", 100, 100, 200, false⟩]
    totalHealth := 150, currentHealth := 100
    destructionPercentage := 100/3 }

/-! ### Theorems -/

/-- C2 (counterexample): on a one-segment structure with `maxHealth = 50`,
`points = 100`, two `damageSection` hits of 30 each leave the exposed
destruction percentage at 120, not at exactly 100 as claimed (and the
segment's health at -10, not 0): the code never clamps health to 0. -/
theorem two_hit_scenario_counterexample :
    ((colonyOne.damageSection 0 30).2.damageSection 0 30).2.destructionPercentage
        = 120 ∧
    ((colonyOne.damageSection 0 30).2.damageSection 0 30).2.sections[0]?
        = some ⟨0, [], "window", -10, 50, 100, true⟩ ∧
    (120 : ℚ) ≠ 100 := by
  refine ⟨?_, ?_, by norm_num⟩ <;>
    norm_num [Colony.damageSection, colonyOne, Colony.destroySection,
      Colony.updateDestructionPercentage]

/-- C2 (amended): on the one-segment structure the first 30-damage hit
returns `{destroyed: false, points: 30}` and leaves health 20; the second
returns `{destroyed: true, points: 100}` but leaves the segment health and
the structure-wide health at -10 (not 0) and the exposed destruction
percentage at 120 (not 100), because no clamping occurs. -/
theorem two_hit_scenario_exact :
    (colonyOne.damageSection 0 30).1 = some ⟨30, false, "window"⟩ ∧
    ((colonyOne.damageSection 0 30).2.sections[0]?).map ColonySection.health
        = some 20 ∧
    (colonyOne.damageSection 0 30).2.currentHealth = 20 ∧
    ((colonyOne.damageSection 0 30).2.damageSection 0 30).1
        = some ⟨100, true, "window"⟩ ∧
    (((colonyOne.damageSection 0 30).2.damageSection 0 30).2.sections[0]?).map
        ColonySection.health = some (-10) ∧
    ((colonyOne.damageSection 0 30).2.damageSection 0 30).2.currentHealth = -10 ∧
    ((colonyOne.damageSection 0 30).2.damageSection 0 30).2.destructionPercentage
        = 120 := by
  refine ⟨?_, ?_, ?_, ?_, ?_, ?_, ?_⟩ <;>
    norm_num [Colony.damageSection, colonyOne, Colony.destroySection,
      Colony.updateDestructionPercentage]

/-- C4: `damageSection` is a no-op returning `null` whenever the index is
out of range or the indexed section is already destroyed; consequently any
number of repeated calls on such an index leaves the colony (in particular
its structure-wide `currentHealth`) unchanged. -/
theorem damageSection_invalid_or_destroyed_noop (c : Colony) (i : ℕ) (d : ℚ)
    (h : c.sections[i]? = none ∨
         ∃ s, c.sections[i]? = some s ∧ s.destroyed = true) :
    c.damageSection i d = (none, c) ∧
    ∀ n, c.runDamage (List.replicate n (i, d)) = c := by
  have hstep : c.damageSection i d = (none, c) := by
    rcases h with h | ⟨s, hs, hsd⟩
    · simp [Colony.damageSection, h]
    · simp [Colony.damageSection, hs, hsd]
  refine ⟨hstep, fun n => ?_⟩
  induction n with
  | zero => rfl
  | succ m ih => simp [List.replicate_succ, Colony.runDamage, hstep, ih]

/-- Witness for `damageSection_invalid_or_destroyed_noop`: on the
two-section colony whose section 0 is destroyed, 30-damage calls on
index 0 return `null` and change nothing. -/
theorem damageSection_invalid_or_destroyed_noop_witness :
    colonyTwo.damageSection 0 30 = (none, colonyTwo) ∧
    colonyTwo.runDamage (List.replicate 3 (0, 30)) = colonyTwo := by
  have h := damageSection_invalid_or_destroyed_noop colonyTwo 0 30
    (Or.inr ⟨⟨0, [1], "window", 0, 50, 100, true⟩, rfl, rfl⟩)
  exact ⟨h.1, h.2 3⟩

/-- C10: a `damageSection` call that damages a section without destroying
it decreases the structure-wide `currentHealth` by the damage amount but
leaves `destructionPercentage` (the value `getDestructionPercentage`
exposes) unchanged: the percentage is recomputed only inside
`destroySection`. -/
theorem nonlethal_damage_keeps_pct (c : Colony) (i : ℕ) (d : ℚ) (r : HitResult)
    (h : (c.damageSection i d).1 = some r) (hr : r.destroyed = false) :
    (c.damageSection i d).2.getDestructionPercentage
        = c.getDestructionPercentage ∧
    (c.damageSection i d).2.currentHealth = c.currentHealth - d := by
  rcases e : c.sections[i]? with _ | s
  · simp [Colony.damageSection, e] at h
  · by_cases hsd : s.destroyed
    · simp [Colony.damageSection, e, hsd] at h
    · by_cases hl : s.health - d ≤ 0
      · exfalso
        simp [Colony.damageSection, e, hsd, sub_nonpos, sub_nonpos.mp hl] at h
        rw [← h] at hr
        exact Bool.true_eq_false.mp hr
      · have hl' : ¬ s.health ≤ d := fun hc => hl (sub_nonpos.mpr hc)
        simp [Colony.damageSection, Colony.getDestructionPercentage, e, hsd,
          sub_nonpos, hl']

/-- Witness for `nonlethal_damage_keeps_pct`: a 30-damage non-lethal hit
on the one-section colony leaves the percentage at 0 and current health
at 20. -/
theorem nonlethal_damage_keeps_pct_witness :
    (colonyOne.damageSection 0 30).2.getDestructionPercentage
        = colonyOne.getDestructionPercentage ∧
    (colonyOne.damageSection 0 30).2.currentHealth
        = colonyOne.currentHealth - 30 :=
  nonlethal_damage_keeps_pct colonyOne 0 30 ⟨30, false, "window"⟩
    (by norm_num [Colony.damageSection, colonyOne]) rfl

/-- C1 (counterexample): in `Game.handleShooting` a non-lethal hit awards
no score at all.  On the one-section colony with a fresh score system
(streak 0) and `deltaTime = 1/60`, the beam deals `10 * (1/60) * 60 = 10`
damage, the hit is non-lethal, and the claimed award
`floor(damage * (1 + streak * 0.1)) = 10` differs from the actual score
delta, which is 0: `addScore` is only invoked for destroying hits. -/
theorem nonlethal_hit_score_counterexample :
    ((colonyOne.damageSection 0 (10 * (1/60) * 60)).1).map HitResult.destroyed
        = some false ∧
    (handleShootingHit colonyOne ScoreSystem.init 0 (1/60)).2.score = 0 ∧
    ⌊(10 * (1/60 : ℚ) * 60) * (1 + (0 : ℚ) * (1/10))⌋ = 10 ∧
    (10 : ℤ) ≠ 0 := by
  refine ⟨?_, ?_, by norm_num, by norm_num⟩
  · norm_num [Colony.damageSection, colonyOne]
  · norm_num [handleShootingHit, Colony.damageSection, colonyOne,
      ScoreSystem.init, ScoreSystem.recordShot, ScoreSystem.recordDamage]

/-- C1 (amended): a hit that damages a section without destroying it
awards no score — `handleShootingHit` leaves `score` unchanged and the
`floor(damage)` point value returned by `damageSection` is discarded.
Only a destroying hit awards score, via `addScore` with the section's
bounty as base points: `floor(points * (1 + streak * 0.1))`. -/
theorem nonlethal_hit_awards_no_score (c : Colony) (ss : ScoreSystem)
    (idx : ℕ) (dt : ℚ) (r : HitResult) (c1 : Colony)
    (h : c.damageSection idx (10 * dt * 60) = (some r, c1)) :
    (r.destroyed = false →
      (handleShootingHit c ss idx dt).2.score = ss.score) ∧
    (r.destroyed = true →
      (handleShootingHit c ss idx dt).2.score
        = ss.score + ⌊r.points * (1 + (ss.combo : ℚ) * (1/10))⌋) := by
  constructor
  · intro hr
    simp [handleShootingHit, h, hr, ScoreSystem.recordShot,
      ScoreSystem.recordDamage]
  · intro hr
    simp [handleShootingHit, h, hr, ScoreSystem.recordShot,
      ScoreSystem.recordDamage, ScoreSystem.recordDestruction,
      ScoreSystem.addScore]

/-- Witness for `nonlethal_hit_awards_no_score`: the non-lethal beam hit
on the one-section colony leaves the score of a fresh score system at 0. -/
theorem nonlethal_hit_awards_no_score_witness :
    (handleShootingHit colonyOne ScoreSystem.init 0 (1/60)).2.score
        = ScoreSystem.init.score :=
  (nonlethal_hit_awards_no_score colonyOne ScoreSystem.init 0 (1/60)
      ⟨10, false, "window"⟩
      ⟨[⟨0, [], "window", 40, 50, 100, false⟩], 50, 40, 0⟩
      (by norm_num [Colony.damageSection, colonyOne])).1 rfl

/-- C5: after every `ScoreSystem` operation, an active streak has a
strictly positive remaining timeout; `addScore` increments the streak by
exactly 1 and resets the timer to the full window; `update` resets the
streak to exactly 0 precisely when the decremented timer reaches 0, and
leaves the streak alone otherwise. -/
theorem combo_invariant (s : ScoreSystem) (basePoints deltaTime : ℚ) :
    ((s.addScore basePoints).2.combo = s.combo + 1 ∧
     (s.addScore basePoints).2.comboTimer = comboTimeout) ∧
    (0 < (s.addScore basePoints).2.combo →
       0 < (s.addScore basePoints).2.comboTimer) ∧
    (0 < (s.update deltaTime).combo → 0 < (s.update deltaTime).comboTimer) ∧
    (0 < s.resetCombo.combo → 0 < s.resetCombo.comboTimer) ∧
    (0 < s.combo → s.comboTimer - deltaTime * 1000 ≤ 0 →
       (s.update deltaTime).combo = 0 ∧ (s.update deltaTime).comboTimer = 0) ∧
    (0 < s.combo → 0 < s.comboTimer - deltaTime * 1000 →
       (s.update deltaTime).combo = s.combo ∧
       (s.update deltaTime).comboTimer = s.comboTimer - deltaTime * 1000) := by
  refine ⟨⟨rfl, rfl⟩, ?_, ?_, ?_, ?_, ?_⟩
  · intro _
    show (0 : ℚ) < comboTimeout
    norm_num [comboTimeout]
  · intro hpos
    by_cases hc : 0 < s.combo
    · by_cases ht : s.comboTimer - deltaTime * 1000 ≤ 0
      · exfalso
        simp [ScoreSystem.update, hc, ht, ScoreSystem.resetCombo] at hpos
      · simp only [ScoreSystem.update, if_pos hc, if_neg ht]
        exact lt_of_not_le ht
    · have hupd : s.update deltaTime = s := by simp [ScoreSystem.update, hc]
      rw [hupd] at hpos
      exact absurd hpos hc
  · intro h0
    exact absurd h0 (by simp [ScoreSystem.resetCombo])
  · intro hc ht
    simp [ScoreSystem.update, hc, ht, ScoreSystem.resetCombo]
  · intro hc ht
    have ht' : ¬ s.comboTimer - deltaTime * 1000 ≤ 0 := not_le.mpr ht
    simp [ScoreSystem.update, hc, ht']

/-- Witness for `combo_invariant`: one scoring hit on a fresh score
system, then an update 3.5 seconds later: after the hit the streak is 1
with the timer at the full 3000 ms window; the late update resets the
streak to exactly 0. -/
theorem combo_invariant_witness :
    ((ScoreSystem.init.addScore 100).2.combo = 0 + 1 ∧
     (ScoreSystem.init.addScore 100).2.comboTimer = comboTimeout) ∧
    ((ScoreSystem.init.addScore 100).2.update (7/2)).combo = 0 := by
  have h1 := combo_invariant ScoreSystem.init 100 (7/2)
  have h2 := combo_invariant (ScoreSystem.init.addScore 100).2 100 (7/2)
  refine ⟨h1.1, ?_⟩
  have hc : 0 < (ScoreSystem.init.addScore 100).2.combo := by
    rw [h1.1.1]
    norm_num
  have ht : (ScoreSystem.init.addScore 100).2.comboTimer - (7/2) * 1000 ≤ 0 := by
    rw [h1.1.2]
    norm_num [comboTimeout]
  exact (h2.2.2.2.2.1 hc ht).1

/-- C6: `Zaku.fire` rejects a request made strictly within the fire-rate
cooldown window (returns `false`, spawns nothing, state unchanged);
otherwise it returns `true`, appends exactly one new bullet with the
muzzle's position/direction, and resets the cooldown timestamp to `now`. -/
theorem fire_cooldown_gate (z : Zaku) (now : ℤ) (mp md : Vec3) :
    (now - z.lastFireTime < z.fireRate → z.fire now mp md = (false, z)) ∧
    (z.fireRate ≤ now - z.lastFireTime →
       (z.fire now mp md).1 = true ∧
       (z.fire now mp md).2.bullets = z.bullets ++ [z.newBullet mp md] ∧
       (z.fire now mp md).2.lastFireTime = now) := by
  constructor
  · intro h
    simp [Zaku.fire, h]
  · intro h
    have h' : ¬ now - z.lastFireTime < z.fireRate := not_lt.mpr h
    refine ⟨by simp [Zaku.fire, h'], ?_,
      by simp [Zaku.fire, h', Zaku.spawnBullet]⟩
    simp [Zaku.fire, h', Zaku.spawnBullet, Zaku.newBullet]

/-- Witness for `fire_cooldown_gate`: firing a fresh Zaku at `t = 1000` ms
succeeds and spawns one bullet; a second request at `t = 1050` ms (within
the 100 ms window) returns `false` and leaves the single bullet as the
only one spawned. -/
theorem fire_cooldown_gate_witness :
    (Zaku.init.fire 1000 ⟨0, 0, 0⟩ ⟨0, 0, 1⟩).1 = true ∧
    (Zaku.init.fire 1000 ⟨0, 0, 0⟩ ⟨0, 0, 1⟩).2.bullets.length = 1 ∧
    ((Zaku.init.fire 1000 ⟨0, 0, 0⟩ ⟨0, 0, 1⟩).2.fire 1050 ⟨0, 0, 0⟩ ⟨0, 0, 1⟩)
        = (false, (Zaku.init.fire 1000 ⟨0, 0, 0⟩ ⟨0, 0, 1⟩).2) := by
  have hfirst := fire_cooldown_gate Zaku.init 1000 ⟨0, 0, 0⟩ ⟨0, 0, 1⟩
  have h1 := hfirst.2 (by norm_num [Zaku.init, machineGunFireRate])
  refine ⟨h1.1, ?_, ?_⟩
  · rw [h1.2.1]
    simp [Zaku.init]
  · have hsecond := fire_cooldown_gate
      (Zaku.init.fire 1000 ⟨0, 0, 0⟩ ⟨0, 0, 1⟩).2 1050 ⟨0, 0, 0⟩ ⟨0, 0, 1⟩
    refine hsecond.1 ?_
    norm_num [Zaku.fire, Zaku.spawnBullet, Zaku.init, machineGunFireRate]

/-- C7: `updateBullets` processes every live bullet exactly once, in order
and without skipping or double-processing (the back-to-front splice loop
equals map-then-filter): each bullet's position advances by
`direction * speed * Δt` and its traveled distance accumulates by
`speed * Δt`, and a bullet is removed exactly when its accumulated
distance reaches its max range.  `updateBullets` applies no damage: it
takes and produces only bullet state, never a colony.  Concretely, a fresh
bullet with `maxRange = 60`, `speed = 150` survives three 0.1 s ticks and
is removed on the fourth (0.4 s total). -/
theorem updateBullets_advance_and_expire (deltaTime : ℚ) (bs : List Bullet) :
    updateBulletsList deltaTime bs
      = (bs.map (updateBullet deltaTime)).filter
          (fun b => decide (b.distanceTraveled < b.maxDistance)) ∧
    (∀ b : Bullet,
       (updateBullet deltaTime b).position
           = b.position.add (Vec3.smul (b.speed * deltaTime) b.direction) ∧
       (updateBullet deltaTime b).distanceTraveled
           = b.distanceTraveled + b.speed * deltaTime ∧
       (updateBullet deltaTime b).maxDistance = b.maxDistance) ∧
    (updateBulletsList (1/10) (updateBulletsList (1/10) (updateBulletsList (1/10)
        [Zaku.init.newBullet ⟨0, 0, 0⟩ ⟨0, 0, 1⟩]))).length = 1 ∧
    updateBulletsList (1/10) (updateBulletsList (1/10) (updateBulletsList (1/10)
        (updateBulletsList (1/10) [Zaku.init.newBullet ⟨0, 0, 0⟩ ⟨0, 0, 1⟩])))
      = [] := by
  refine ⟨?_, fun b => ⟨rfl, rfl, rfl⟩, ?_, ?_⟩
  · induction bs with
    | nil => rfl
    | cons b rest ih =>
      simp only [updateBulletsList, List.map_cons, List.filter_cons, ih]
      by_cases hb : (updateBullet deltaTime b).distanceTraveled
          ≥ (updateBullet deltaTime b).maxDistance
      · simp [hb, not_lt.mpr hb]
      · simp [hb, not_le.mp hb]
  · norm_num [updateBulletsList, updateBullet, Zaku.init, Zaku.newBullet,
      machineGunRange, zakuBulletSpeed]
  · norm_num [updateBulletsList, updateBullet, Zaku.init, Zaku.newBullet,
      machineGunRange, zakuBulletSpeed]

/-- Index-tracking specification of the scan loop in
`Colony.getSectionAtPoint`: a successful lookup starting at offset `k`
returns a non-destroyed section together with its true index. -/
theorem getSectionAtPointFrom_spec (l : List ColonySection) (chain : List ℕ)
    (k i : ℕ) (s : ColonySection)
    (h : Colony.getSectionAtPointFrom l chain k = some (i, s)) :
    s.destroyed = false ∧ k ≤ i ∧ l[i - k]? = some s := by
  induction l generalizing k with
  | nil => simp [Colony.getSectionAtPointFrom] at h
  | cons a rest ih =>
    by_cases hd : a.destroyed
    · have h' : Colony.getSectionAtPointFrom rest chain (k + 1) = some (i, s) := by
        simpa [Colony.getSectionAtPointFrom, hd] using h
      obtain ⟨h1, h2, h3⟩ := ih (k + 1) h'
      refine ⟨h1, le_trans (Nat.le_succ k) h2, ?_⟩
      obtain ⟨j, hj⟩ : ∃ j, i - k = j + 1 := ⟨i - (k + 1), by omega⟩
      rw [hj]
      have hj' : i - (k + 1) = j := by omega
      rw [hj'] at h3
      simpa using h3
    · by_cases hm : a.meshId ∈ chain
      · have h' : (some (k, a) : Option (ℕ × ColonySection)) = some (i, s) := by
          simpa [Colony.getSectionAtPointFrom, hd, hm] using h
        obtain ⟨hk, ha⟩ := Prod.mk.injEq .. ▸ Option.some.injEq .. ▸ h'
        subst hk
        subst ha
        simp [Bool.not_eq_true] at hd
        exact ⟨hd, le_refl k, by simp⟩
      · have h' : Colony.getSectionAtPointFrom rest chain (k + 1) = some (i, s) := by
          simpa [Colony.getSectionAtPointFrom, hd, hm] using h
        obtain ⟨h1, h2, h3⟩ := ih (k + 1) h'
        refine ⟨h1, le_trans (Nat.le_succ k) h2, ?_⟩
        obtain ⟨j, hj⟩ : ∃ j, i - k = j + 1 := ⟨i - (k + 1), by omega⟩
        rw [hj]
        have hj' : i - (k + 1) = j := by omega
        rw [hj'] at h3
        simpa using h3

/-- C8: hit resolution can never select a destroyed section.  Whenever
`getSectionAtPoint` maps an intersection back to a section, that section
is non-destroyed and is the section actually stored at the returned index;
and every object in `getHitTargets` (the ray-cast target set) belongs to a
non-destroyed section's mesh tree. -/
theorem hit_selection_skips_destroyed (c : Colony) (chain : List ℕ)
    (i : ℕ) (s : ColonySection)
    (h : c.getSectionAtPoint chain = some (i, s)) :
    s.destroyed = false ∧ c.sections[i]? = some s ∧
    ∀ m ∈ c.getHitTargets, ∃ t ∈ c.sections,
      t.destroyed = false ∧ (m = t.meshId ∨ m ∈ t.meshChildren) := by
  obtain ⟨h1, _, h3⟩ := getSectionAtPointFrom_spec c.sections chain 0 i s h
  refine ⟨h1, by simpa using h3, ?_⟩
  intro m hm
  simp only [Colony.getHitTargets, List.mem_flatMap, List.mem_filter,
    Bool.not_eq_true', List.mem_cons] at hm
  obtain ⟨t, ⟨htmem, htd⟩, hmt⟩ := hm
  exact ⟨t, htmem, htd, by simpa using hmt⟩

/-- Witness for `hit_selection_skips_destroyed`: on the two-section colony
whose first section is destroyed, an intersection with object 3 (a child
of the live section's mesh 2, so its parent chain is `[3, 2]`) resolves to
index 1, a non-destroyed section. -/
theorem hit_selection_skips_destroyed_witness :
    (⟨2, [3], "solarPanel", 100, 100, 200, false⟩ : ColonySection).destroyed
        = false ∧
    colonyTwo.sections[1]? = some ⟨2, [3], "solarPanel", 100, 100, 200, false⟩ := by
  have h := hit_selection_skips_destroyed colonyTwo [3, 2]
    1 ⟨2, [3], "solarPanel", 100, 100, 200, false⟩
    (by simp [Colony.getSectionAtPoint, Colony.getSectionAtPointFrom, colonyTwo])
  exact ⟨h.1, h.2.1⟩

/-- One `processMovement` boost tick with a non-negative `deltaTime` keeps
the boost energy inside `[0, maxBoostEnergy]`. -/
theorem stepBoostEnergy_mem (e : ℚ) (b : Bool) (deltaTime : ℚ)
    (he0 : 0 ≤ e) (he1 : e ≤ maxBoostEnergy) (hdt : 0 ≤ deltaTime) :
    0 ≤ stepBoostEnergy e b deltaTime ∧
    stepBoostEnergy e b deltaTime ≤ maxBoostEnergy := by
  unfold stepBoostEnergy
  by_cases hb : (b && decide (e > 0)) = true
  · simp only [hb, if_true]
    refine ⟨le_max_left 0 _, max_le ?_ ?_⟩
    · norm_num [maxBoostEnergy]
    · have : boostDrainRate * deltaTime ≥ 0 := by
        have : (0 : ℚ) ≤ boostDrainRate := by norm_num [boostDrainRate]
        exact mul_nonneg this hdt
      linarith
  · simp only [hb, if_false]
    refine ⟨le_min ?_ ?_, min_le_left _ _⟩
    · norm_num [maxBoostEnergy]
    · have : boostRegenRate * deltaTime ≥ 0 := by
        have : (0 : ℚ) ≤ boostRegenRate := by norm_num [boostRegenRate]
        exact mul_nonneg this hdt
      linarith

/-- C9: over any sequence of `processMovement` ticks with non-negative
`deltaTime` and arbitrary boost flags, the boost energy stays in
`[0, maxBoostEnergy]`; moreover a boosting tick with positive energy never
increases the energy (drain toward 0) and a non-boosting tick never
decreases it (regeneration toward the maximum). -/
theorem boost_energy_clamped (e : ℚ) (inputs : List (Bool × ℚ))
    (he0 : 0 ≤ e) (he1 : e ≤ maxBoostEnergy)
    (hdt : ∀ p ∈ inputs, 0 ≤ p.2) :
    (0 ≤ runBoost e inputs ∧ runBoost e inputs ≤ maxBoostEnergy) ∧
    (∀ x dt : ℚ, 0 < x → 0 ≤ dt → stepBoostEnergy x true dt ≤ x) ∧
    (∀ x dt : ℚ, x ≤ maxBoostEnergy → 0 ≤ dt →
       x ≤ stepBoostEnergy x false dt) := by
  refine ⟨?_, ?_, ?_⟩
  · induction inputs generalizing e with
    | nil => exact ⟨he0, he1⟩
    | cons p rest ih =>
      obtain ⟨b, dt⟩ := p
      have hdt0 : 0 ≤ dt := hdt (b, dt) (List.mem_cons_self _ _)
      have hstep := stepBoostEnergy_mem e b dt he0 he1 hdt0
      exact ih (stepBoostEnergy e b dt) hstep.1 hstep.2
        (fun q hq => hdt q (List.mem_cons_of_mem _ hq))
  · intro x dt hx hdtx
    have hb : ((true : Bool) && decide (x > 0)) = true := by simp [hx]
    simp only [stepBoostEnergy, hb, if_true]
    have : (0 : ℚ) ≤ boostDrainRate * dt :=
      mul_nonneg (by norm_num [boostDrainRate]) hdtx
    have hxle : x - boostDrainRate * dt ≤ x := by linarith
    exact max_le (le_of_lt hx) hxle
  · intro x dt hx hdtx
    have hb : ((false : Bool) && decide (x > 0)) = true → False := by simp
    simp only [stepBoostEnergy, Bool.false_and, if_false]
    have : (0 : ℚ) ≤ boostRegenRate * dt :=
      mul_nonneg (by norm_num [boostRegenRate]) hdtx
    exact le_min hx (by linarith)

/-- Witness for `boost_energy_clamped`: starting from full energy, a
boosting tick of 1 s, a boosting tick of 5 s (draining to the 0 clamp),
and a non-boosting tick of 2 s leave the energy inside `[0, 100]`. -/
theorem boost_energy_clamped_witness :
    (0 ≤ runBoost 100 [(true, 1), (true, 5), (false, 2)] ∧
     runBoost 100 [(true, 1), (true, 5), (false, 2)] ≤ maxBoostEnergy) :=
  (boost_energy_clamped 100 [(true, 1), (true, 5), (false, 2)]
    (by norm_num) (by norm_num [maxBoostEnergy])
    (by intro p hp; fin_cases hp <;> norm_num)).1

/-! ### Destruction-percentage invariant (C3) -/

/-- Effect of `List.set` on the summed section healths. -/
theorem healthSum_set (l : List ColonySection) (i : ℕ) (a s : ColonySection)
    (h : l[i]? = some s) :
    ((l.set i a).map ColonySection.health).sum
      = (l.map ColonySection.health).sum - s.health + a.health := by
  induction l generalizing i with
  | nil => simp at h
  | cons b rest ih =>
    cases i with
    | zero =>
      simp only [List.getElem?_cons_zero, Option.some.injEq] at h
      subst h
      simp only [List.set, List.map_cons, List.sum_cons]
      ring
    | succ n =>
      simp only [List.getElem?_cons_succ] at h
      simp only [List.set, List.map_cons, List.sum_cons, ih n h]
      ring

/-- A list of non-positive rationals has non-positive sum. -/
theorem list_sum_nonpos : ∀ l : List ℚ, (∀ x ∈ l, x ≤ 0) → l.sum ≤ 0
  | [], _ => by simp
  | x :: xs, h => by
    simp only [List.sum_cons]
    have hx := h x (List.mem_cons_self x xs)
    have hxs := list_sum_nonpos xs fun y hy => h y (List.mem_cons_of_mem x hy)
    linarith

/-- State invariant of a colony built by `createColony` and maintained by
`damageSection`: positive total health, structure-wide current health in
sync with the per-section healths, live sections strictly positive and
destroyed sections non-positive, and the cached `destructionPercentage`
never ahead of (and, once everything is destroyed, equal to) the value
implied by the current health. -/
def Colony.Inv (c : Colony) : Prop :=
  0 < c.totalHealth ∧
  c.currentHealth = (c.sections.map ColonySection.health).sum ∧
  (∀ s ∈ c.sections, s.destroyed = false → 0 < s.health) ∧
  (∀ s ∈ c.sections, s.destroyed = true → s.health ≤ 0) ∧
  c.destructionPercentage
      ≤ (c.totalHealth - c.currentHealth) / c.totalHealth * 100 ∧
  ((∀ s ∈ c.sections, s.destroyed = true) →
     c.destructionPercentage
       = (c.totalHealth - c.currentHealth) / c.totalHealth * 100)

/-- One `damageSection` call with positive damage preserves the colony
invariant and never lowers the exposed destruction percentage. -/
theorem damageSection_preserves_inv (c : Colony) (i : ℕ) (d : ℚ)
    (hd : 0 < d) (hc : c.Inv) :
    (c.damageSection i d).2.Inv ∧
    c.destructionPercentage ≤ (c.damageSection i d).2.destructionPercentage := by
  obtain ⟨htot, hcur, halive, hdead, hle, hall⟩ := hc
  rcases e : c.sections[i]? with _ | s
  · have hres : c.damageSection i d = (none, c) := by
      simp [Colony.damageSection, e]
    rw [hres]
    exact ⟨⟨htot, hcur, halive, hdead, hle, hall⟩, le_refl _⟩
  · have hilen : i < c.sections.length := by
      by_contra hge
      push_neg at hge
      rw [List.getElem?_eq_none hge] at e
      exact Option.noConfusion e
    by_cases hsd : s.destroyed
    · have hres : c.damageSection i d = (none, c) := by
        simp [Colony.damageSection, e, hsd]
      rw [hres]
      exact ⟨⟨htot, hcur, halive, hdead, hle, hall⟩, le_refl _⟩
    · have hmono : (c.totalHealth - c.currentHealth) / c.totalHealth * 100
          ≤ (c.totalHealth - (c.currentHealth - d)) / c.totalHealth * 100 := by
        have h1 : (c.totalHealth - c.currentHealth) / c.totalHealth
            ≤ (c.totalHealth - (c.currentHealth - d)) / c.totalHealth :=
          (div_le_div_iff_of_pos_right htot).mpr (by linarith)
        exact mul_le_mul_of_nonneg_right h1 (by norm_num)
      by_cases hl : s.health ≤ d
      · -- destroying hit
        have hres : (c.damageSection i d).2 =
            { sections := c.sections.set i
                { s with health := s.health - d, destroyed := true }
              totalHealth := c.totalHealth
              currentHealth := c.currentHealth - d
              destructionPercentage :=
                (c.totalHealth - (c.currentHealth - d)) / c.totalHealth * 100 } := by
          simp [Colony.damageSection, e, hsd, hl, Colony.destroySection,
            Colony.updateDestructionPercentage]
        rw [hres]
        refine ⟨⟨htot, ?_, ?_, ?_, le_refl _, fun _ => rfl⟩, le_trans hle hmono⟩
        · rw [healthSum_set c.sections i _ s e]
          simp only []
          rw [hcur]
          ring
        · intro x hx hxd
          rcases List.mem_or_eq_of_mem_set hx with hx' | hx'
          · exact halive x hx' hxd
          · subst hx'
            simp at hxd
        · intro x hx _
          rcases List.mem_or_eq_of_mem_set hx with hx' | hx'
          · exact hdead x hx' (by assumption)
          · subst hx'
            simpa using sub_nonpos.mpr hl
      · -- non-lethal hit
        have hres : (c.damageSection i d).2 =
            { sections := c.sections.set i { s with health := s.health - d }
              totalHealth := c.totalHealth
              currentHealth := c.currentHealth - d
              destructionPercentage := c.destructionPercentage } := by
          simp [Colony.damageSection, e, hsd, hl]
        rw [hres]
        refine ⟨⟨htot, ?_, ?_, ?_, le_trans hle hmono, ?_⟩, le_refl _⟩
        · rw [healthSum_set c.sections i _ s e]
          simp only []
          rw [hcur]
          ring
        · intro x hx hxd
          rcases List.mem_or_eq_of_mem_set hx with hx' | hx'
          · exact halive x hx' hxd
          · subst hx'
            push_neg at hl
            simpa using sub_pos.mpr hl
        · intro x hx hxd
          rcases List.mem_or_eq_of_mem_set hx with hx' | hx'
          · exact hdead x hx' hxd
          · subst hx'
            simp at hxd
            exact absurd hxd hsd
        · intro hallx
          exfalso
          have hmem' : ({ s with health := s.health - d } : ColonySection)
              ∈ c.sections.set i { s with health := s.health - d } :=
            List.mem_set c.sections i hilen _
          have hxd := hallx _ hmem'
          simp at hxd
          exact hsd hxd

/-- Any sequence of positive-damage `damageSection` calls preserves the
invariant and never lowers the exposed destruction percentage. -/
theorem runDamage_preserves_inv (calls : List (ℕ × ℚ)) (c : Colony)
    (hc : c.Inv) (hd : ∀ p ∈ calls, 0 < p.2) :
    (c.runDamage calls).Inv ∧
    c.destructionPercentage ≤ (c.runDamage calls).destructionPercentage := by
  induction calls generalizing c with
  | nil => exact ⟨hc, le_refl _⟩
  | cons p rest ih =>
    obtain ⟨i, d⟩ := p
    have hdp : 0 < d := hd (i, d) (List.mem_cons_self _ _)
    have hstep := damageSection_preserves_inv c i d hdp hc
    have hrest := ih (c.damageSection i d).2 hstep.1
      fun q hq => hd q (List.mem_cons_of_mem _ hq)
    exact ⟨hrest.1, le_trans hstep.2 hrest.2⟩

/-- The overkill run on the one-section colony: a single 60-damage hit on
the 50-health section. -/
theorem colonyOne_overkill_run :
    colonyOne.runDamage [(0, 60)]
      = ⟨[⟨0, [], "window", -10, 50, 100, true⟩], 50, -10, 120⟩ := by
  norm_num [Colony.runDamage, Colony.damageSection, colonyOne,
    Colony.destroySection, Colony.updateDestructionPercentage]

/-- C3 (counterexample): after one 60-damage hit on the one-section
colony every section is destroyed, yet the exposed destruction percentage
is 120, not exactly 100 as claimed: overkill damage drives the
structure-wide health negative and the percentage above 100. -/
theorem destruction_pct_overkill_counterexample :
    (∀ s ∈ (colonyOne.runDamage [(0, 60)]).sections, s.destroyed = true) ∧
    (colonyOne.runDamage [(0, 60)]).destructionPercentage = 120 ∧
    (120 : ℚ) ≠ 100 := by
  rw [colonyOne_overkill_run]
  refine ⟨?_, rfl, by norm_num⟩
  intro s hs
  simp only [List.mem_singleton] at hs
  subst hs
  rfl

/-- C3 (amended): over any sequence of positive-damage `damageSection`
calls on a well-formed colony, the exposed destruction percentage never
decreases, and once every section is destroyed it is at least 100 (it
equals 100 only when the total damage dealt exactly matches the total
health; overkill pushes it above 100). -/
theorem destruction_pct_monotone (c : Colony) (calls : List (ℕ × ℚ))
    (hc : c.Inv) (hd : ∀ p ∈ calls, 0 < p.2) :
    c.destructionPercentage ≤ (c.runDamage calls).destructionPercentage ∧
    ((∀ s ∈ (c.runDamage calls).sections, s.destroyed = true) →
       100 ≤ (c.runDamage calls).destructionPercentage) := by
  obtain ⟨hinv, hmono⟩ := runDamage_preserves_inv calls c hc hd
  obtain ⟨htot, hcur, _, hdead, _, hall⟩ := hinv
  refine ⟨hmono, fun hx => ?_⟩
  rw [hall hx]
  have hsum : (((c.runDamage calls).sections.map ColonySection.health)).sum ≤ 0 := by
    apply list_sum_nonpos
    intro x hx'
    simp only [List.mem_map] at hx'
    obtain ⟨t, ht, rfl⟩ := hx'
    exact hdead t ht (hx t ht)
  have hcur0 : (c.runDamage calls).currentHealth ≤ 0 := hcur ▸ hsum
  have h1 : (1 : ℚ) ≤ ((c.runDamage calls).totalHealth
      - (c.runDamage calls).currentHealth) / (c.runDamage calls).totalHealth :=
    (one_le_div htot).mpr (by linarith)
  have h2 := mul_le_mul_of_nonneg_right h1 (by norm_num : (0 : ℚ) ≤ 100)
  simpa using h2

/-- Witness for `destruction_pct_monotone`: the overkill run on the
one-section colony takes the exposed percentage from 0 up to 120 ≥ 100. -/
theorem destruction_pct_monotone_witness :
    colonyOne.destructionPercentage
        ≤ (colonyOne.runDamage [(0, 60)]).destructionPercentage ∧
    100 ≤ (colonyOne.runDamage [(0, 60)]).destructionPercentage := by
  have hinv : colonyOne.Inv := by
    refine ⟨by norm_num [colonyOne], by simp [colonyOne], ?_, ?_, ?_, ?_⟩
    · intro s hs _
      simp only [colonyOne, List.mem_singleton] at hs
      subst hs
      norm_num
    · intro s hs hsd
      simp only [colonyOne, List.mem_singleton] at hs
      subst hs
      simp at hsd
    · norm_num [colonyOne]
    · intro h
      have hc := h ⟨0, [], "window", 50, 50, 100, false⟩
        (by simp [colonyOne])
      simp at hc
  have hd : ∀ p ∈ [((0 : ℕ), (60 : ℚ))], 0 < p.2 := by
    intro p hp
    simp only [List.mem_singleton] at hp
    subst hp
    norm_num
  have h := destruction_pct_monotone colonyOne [(0, 60)] hinv hd
  refine ⟨h.1, h.2 ?_⟩
  rw [colonyOne_overkill_run]
  intro s hs
  simp only [List.mem_singleton] at hs
  subst hs
  rfl

end ZakuApp
